import Mathlib

/-!
Verification of the reception-queue server (`Server_main.py`).

The server keeps two SQL tables, `Service` and `Ticket`, and exposes
request handlers `create_service`, `register_ticket`, `get_ticket`,
`cancel_ticket`, `queue_detail`, `call_next` and `stats`.  We embed the
store as explicit lists kept in row-insertion order (SQLite rowid order),
timestamps as naturals (the wall clock is passed in as an argument
`now`), and each handler as a function from the store to an
`Except`-style outcome paired with the post-state of the store.  An
`HTTPException` raised by the Python code before `session.commit()`
leaves the database untouched, so an error outcome is paired with the
unchanged store.
-/

/-! Concrete stores used to witness the theorems below. -/

/-! The mutating operations as a step system, for the temporal and
frame claims. -/

/-- Row of the `Ticket` table (`Server_main.py`, class `Ticket`). -/
structure Ticket where
  id : Nat
  name : String
  service_id : Nat
  called : Bool
  created_at : Nat
  called_at : Option Nat
deriving Repr, DecidableEq

/-- Row of the `Service` table (`Server_main.py`, class `Service`). -/
structure Service where
  id : Nat
  name : String
  description : Option String
  created_at : Nat
deriving Repr, DecidableEq

/-- Response schema `TicketRead`: a ticket together with its computed
position. -/
structure TicketRead where
  id : Nat
  name : String
  service_id : Nat
  position : Nat
  called : Bool
  created_at : Nat
  called_at : Option Nat
deriving Repr, DecidableEq

/-- Response schema `QueueRead` returned by `queue_detail`. -/
structure QueueRead where
  service_id : Nat
  service_name : String
  waiting : Nat
  tickets : List TicketRead
deriving Repr, DecidableEq

/-- Response schema `QueueSummary` returned by `stats`. -/
structure QueueSummary where
  service_id : Nat
  service_name : String
  waiting : Nat
deriving Repr, DecidableEq

/-- An `HTTPException(status_code, detail)` as raised by the handlers. -/
structure HTTPError where
  status : Nat
  detail : String
deriving Repr, DecidableEq

/-- The database: both tables in rowid (insertion) order, plus the next
auto-increment primary keys. -/
structure Store where
  services : List Service
  tickets : List Ticket
  nextServiceId : Nat
  nextTicketId : Nat
deriving Repr, DecidableEq

/-- `session.get(Service, sid)`: primary-key lookup. -/
def getService (s : Store) (sid : Nat) : Option Service :=
  s.services.find? (fun v => v.id == sid)

/-- `session.get(Ticket, tid)`: primary-key lookup. -/
def getTicket (s : Store) (tid : Nat) : Option Ticket :=
  s.tickets.find? (fun t => t.id == tid)

/-- `_ticket_to_read(ticket, position)`. -/
def ticket_to_read (t : Ticket) (position : Nat) : TicketRead :=
  ⟨t.id, t.name, t.service_id, position, t.called, t.created_at, t.called_at⟩

/-- `_position_in_queue(ticket, session)`: 0 when called, else 1 plus the
number of waiting tickets of the same service with strictly earlier
`created_at`. -/
def position_in_queue (t : Ticket) (s : Store) : Nat :=
  if t.called then 0
  else (s.tickets.filter (fun u =>
      u.service_id == t.service_id && u.called == false
        && u.created_at < t.created_at)).length + 1

/-- `create_service` (`POST /services`, decorator status 201): rejects a
duplicate name with `HTTPException(400, ...)`, otherwise inserts the
service.  The success payload carries the decorator status code. -/
def create_service (s : Store) (name : String) (description : Option String)
    (now : Nat) : Except HTTPError (Nat × Service) × Store :=
  if (s.services.find? (fun v => v.name == name)).isSome then
    (.error ⟨400, "Service " ++ name ++ " already exists"⟩, s)
  else
    let svc : Service := ⟨s.nextServiceId, name, description, now⟩
    (.ok (201, svc),
      { s with services := s.services ++ [svc],
               nextServiceId := s.nextServiceId + 1 })

/-- `register_ticket` (`POST /tickets`, decorator status 201): 404 when
the service is missing, otherwise inserts a waiting ticket stamped with
the current time and returns it with its computed position. -/
def register_ticket (s : Store) (name : String) (service_id : Nat)
    (now : Nat) : Except HTTPError (Nat × TicketRead) × Store :=
  match getService s service_id with
  | none => (.error ⟨404, "Service not found"⟩, s)
  | some service =>
    let ticket : Ticket := ⟨s.nextTicketId, name, service.id, false, now, none⟩
    let s2 : Store := { s with tickets := s.tickets ++ [ticket],
                               nextTicketId := s.nextTicketId + 1 }
    let pos := position_in_queue ticket s2
    (.ok (201, ticket_to_read ticket pos), s2)

/-- `get_ticket` (`GET /tickets/{ticket_id}`): read-only. -/
def get_ticket (s : Store) (ticket_id : Nat) :
    Except HTTPError (Nat × TicketRead) :=
  match getTicket s ticket_id with
  | none => .error ⟨404, "Ticket not found"⟩
  | some ticket => .ok (200, ticket_to_read ticket (position_in_queue ticket s))

/-- `cancel_ticket` (`DELETE /tickets/{ticket_id}`, decorator status 204):
404 when absent, 400 when already called, otherwise deletes the row. -/
def cancel_ticket (s : Store) (ticket_id : Nat) :
    Except HTTPError Nat × Store :=
  match getTicket s ticket_id with
  | none => (.error ⟨404, "Ticket not found"⟩, s)
  | some ticket =>
    if ticket.called then
      (.error ⟨400, "Already called; cannot cancel"⟩, s)
    else
      (.ok 204, { s with tickets := s.tickets.filter (fun u => u.id != ticket_id) })

/-- The tickets of a service in rowid order
(`select(Ticket).where(Ticket.service_id == service_id)`). -/
def serviceTickets (s : Store) (service_id : Nat) : List Ticket :=
  s.tickets.filter (fun t => t.service_id == service_id)

/-- The waiting tickets of a service in rowid order
(`where(Ticket.service_id == sid, Ticket.called == False)`). -/
def waitingList (s : Store) (service_id : Nat) : List Ticket :=
  s.tickets.filter (fun t => t.service_id == service_id && t.called == false)

/-- Queue order used by `order_by(Ticket.created_at)`. -/
def byCreated : Ticket → Ticket → Prop :=
  fun a b => a.created_at ≤ b.created_at

instance : DecidableRel byCreated := fun _ _ => Nat.decLe _ _

instance : IsTotal Ticket byCreated := ⟨fun _ _ => Nat.le_total _ _⟩

instance : IsTrans Ticket byCreated := ⟨fun _ _ _ h h2 => Nat.le_trans h h2⟩

/-- `order_by(Ticket.created_at)` over the rows of one service: a stable
sort by `created_at` of the rowid-ordered rows. -/
def sortedServiceTickets (s : Store) (service_id : Nat) : List Ticket :=
  (serviceTickets s service_id).insertionSort byCreated

/-- The `idx` loop of `queue_detail` (lines 187-193): annotate each
ticket with 0 when called, else with the running 1-based waiting index. -/
def annotate : List Ticket → Nat → List TicketRead
  | [], _ => []
  | t :: ts, idx =>
    if t.called then ticket_to_read t 0 :: annotate ts idx
    else ticket_to_read t idx :: annotate ts (idx + 1)

/-- `queue_detail` (`GET /queues/{service_id}`): 404 when the service is
absent; otherwise all tickets of the service ordered by `created_at`,
waiting count, and per-ticket positions from the `idx` loop. -/
def queue_detail (s : Store) (service_id : Nat) :
    Except HTTPError (Nat × QueueRead) :=
  match getService s service_id with
  | none => .error ⟨404, "Service not found"⟩
  | some service =>
    let all_tickets := sortedServiceTickets s service_id
    let waiting := (all_tickets.filter (fun t => !t.called)).length
    .ok (200, ⟨service.id, service.name, waiting, annotate all_tickets 1⟩)

/-- First row, in rowid order, whose `created_at` is minimal in the
list. -/
def pickMin (l : List Ticket) : Option Ticket :=
  l.foldl
    (fun acc t =>
      match acc with
      | none => some t
      | some b => if t.created_at < b.created_at then some t else acc)
    none

/-- The `limit(1)` selection of `call_next`: the first row, in rowid
order, whose `created_at` is minimal among the waiting rows of the
service. -/
def firstWaiting (s : Store) (service_id : Nat) : Option Ticket :=
  pickMin (waitingList s service_id)

/-- `call_next` (`POST /admin/next/{service_id}`): 404 when nobody is
waiting; otherwise flips the selected ticket to called, stamps
`called_at` with the current time, and returns it with position 0. -/
def call_next (s : Store) (service_id : Nat) (now : Nat) :
    Except HTTPError (Nat × TicketRead) × Store :=
  match firstWaiting s service_id with
  | none => (.error ⟨404, "No one waiting"⟩, s)
  | some ticket =>
    let t2 : Ticket := { ticket with called := true, called_at := some now }
    (.ok (200, ticket_to_read t2 0),
      { s with tickets := s.tickets.map (fun u => if u.id == ticket.id then t2 else u) })

/-- `stats` (`GET /stats`): waiting count per service. -/
def stats (s : Store) : List QueueSummary :=
  s.services.map (fun svc => ⟨svc.id, svc.name, (waitingList s svc.id).length⟩)

/-- Recover the underlying `Ticket` row from a `TicketRead` payload. -/
def readTicket (r : TicketRead) : Ticket :=
  ⟨r.id, r.name, r.service_id, r.called, r.created_at, r.called_at⟩

deriving instance DecidableEq for Except

/-- A store holding one service and no tickets. -/
def oneServiceStore : Store := ⟨[⟨1, "Reception", none, 0⟩], [], 2, 1⟩

/-- A store holding one service, one called ticket and one waiting
ticket. -/
def mixedStore : Store :=
  ⟨[⟨1, "Reception", none, 0⟩],
   [⟨1, "Alice", 1, true, 5, some 9⟩, ⟨2, "Bob", 1, false, 7, none⟩], 2, 3⟩

/-- A store holding two waiting tickets that share a `created_at`. -/
def tieStore : Store :=
  ⟨[⟨1, "Reception", none, 0⟩],
   [⟨1, "A", 1, false, 5, none⟩, ⟨2, "B", 1, false, 5, none⟩], 2, 3⟩

/-- The called version of a ticket: `called` flipped to true and
`called_at` stamped with the current time. -/
def calledVersion (t : Ticket) (now : Nat) : Ticket :=
  { t with called := true, called_at := some now }

/-- The store after `call_next` committed the flip of ticket `t`: the
row with primary key `t.id` is replaced by its called version. -/
def callNextStore (s : Store) (t : Ticket) (now : Nat) : Store :=
  { s with tickets :=
      s.tickets.map (fun u => if u.id == t.id then calledVersion t now else u) }

/-- One mutating request against the server. -/
inductive Op where
  | createService (name : String) (description : Option String) (now : Nat)
  | register (name : String) (service_id : Nat) (now : Nat)
  | cancel (ticket_id : Nat)
  | next (service_id : Nat) (now : Nat)

/-- The database state after one request (errors leave it unchanged). -/
def applyOp (s : Store) : Op → Store
  | .createService n d now => (create_service s n d now).2
  | .register n sid now => (register_ticket s n sid now).2
  | .cancel tid => (cancel_ticket s tid).2
  | .next sid now => (call_next s sid now).2

/-- The database state after a sequence of requests. -/
def applyOps (s : Store) (ops : List Op) : Store :=
  ops.foldl applyOp s

/-- Primary-key discipline of the `Ticket` table: ids are unique and
below the auto-increment counter. -/
def TicketIdsOk (s : Store) : Prop :=
  (s.tickets.map Ticket.id).Nodup ∧ ∀ u ∈ s.tickets, u.id < s.nextTicketId

/-- A store holding two services with one waiting ticket each. -/
def twoServiceStore : Store :=
  ⟨[⟨1, "Reception", none, 0⟩, ⟨2, "Info", none, 0⟩],
   [⟨1, "Alice", 1, false, 5, none⟩, ⟨2, "Bob", 2, false, 6, none⟩], 3, 3⟩

/-- The waiting tickets of a service ranked by `created_at` ascending. -/
def sortedWaiting (s : Store) (sid : Nat) : List Ticket :=
  (waitingList s sid).insertionSort byCreated

/-! Lemmas about the minimum selection of `call_next`. -/

lemma pickMin_go (l : List Ticket) (b : Ticket) :
    ∃ t, l.foldl
        (fun acc u =>
          match acc with
          | none => some u
          | some c => if u.created_at < c.created_at then some u else acc)
        (some b)
      = some t
      ∧ (t = b ∨ t ∈ l) ∧ t.created_at ≤ b.created_at
      ∧ ∀ u ∈ l, t.created_at ≤ u.created_at := by
  induction l generalizing b with
  | nil => exact ⟨b, rfl, Or.inl rfl, Nat.le_refl _, by simp⟩
  | cons u l ih =>
    by_cases h : u.created_at < b.created_at
    · obtain ⟨t, hfold, hmem, hle, hall⟩ := ih u
      refine ⟨t, by simpa [h] using hfold, ?_, Nat.le_of_lt (Nat.lt_of_le_of_lt hle h), ?_⟩
      · rcases hmem with rfl | hm
        · exact Or.inr (List.mem_cons_self _ _)
        · exact Or.inr (List.mem_cons_of_mem _ hm)
      · intro v hv
        rcases List.mem_cons.mp hv with rfl | hv2
        · exact hle
        · exact hall v hv2
    · obtain ⟨t, hfold, hmem, hle, hall⟩ := ih b
      refine ⟨t, by simpa [h] using hfold, ?_, hle, ?_⟩
      · rcases hmem with rfl | hm
        · exact Or.inl rfl
        · exact Or.inr (List.mem_cons_of_mem _ hm)
      · intro v hv
        rcases List.mem_cons.mp hv with rfl | hv2
        · exact Nat.le_trans hle (Nat.le_of_not_lt h)
        · exact hall v hv2

lemma pickMin_nil : pickMin [] = none := rfl

lemma pickMin_cons (a : Ticket) (l : List Ticket) :
    ∃ t, pickMin (a :: l) = some t ∧ t ∈ a :: l
      ∧ ∀ u ∈ a :: l, t.created_at ≤ u.created_at := by
  obtain ⟨t, hfold, hmem, hle, hall⟩ := pickMin_go l a
  refine ⟨t, hfold, ?_, ?_⟩
  · rcases hmem with rfl | hm
    · exact List.mem_cons_self _ _
    · exact List.mem_cons_of_mem _ hm
  · intro u hu
    rcases List.mem_cons.mp hu with rfl | hu2
    · exact hle
    · exact hall u hu2

lemma firstWaiting_spec (s : Store) (sid : Nat) :
    (waitingList s sid = [] → firstWaiting s sid = none)
    ∧ (waitingList s sid ≠ [] →
      ∃ t, firstWaiting s sid = some t ∧ t ∈ waitingList s sid
        ∧ ∀ u ∈ waitingList s sid, t.created_at ≤ u.created_at) := by
  constructor
  · intro h; simp [firstWaiting, h, pickMin_nil]
  · intro h
    match hw : waitingList s sid with
    | [] => exact absurd hw h
    | a :: l =>
      obtain ⟨t, h1, h2, h3⟩ := pickMin_cons a l
      exact ⟨t, by simpa [firstWaiting, hw] using h1, hw ▸ h2, hw ▸ h3⟩

/-- Claim C1: whenever some ticket of the service is waiting,
`call_next` picks a waiting ticket whose `created_at` is minimal among
the waiting tickets, flips its `called` flag to true, stamps
`called_at` with the current time, and returns it with position 0;
when no ticket is waiting it fails with 404 `No one waiting` and the
store is unchanged. -/
theorem call_next_spec (s : Store) (sid now : Nat) :
    (waitingList s sid = [] →
      call_next s sid now = (.error ⟨404, "No one waiting"⟩, s))
    ∧ (waitingList s sid ≠ [] →
      ∃ t, t ∈ waitingList s sid
        ∧ (∀ u ∈ waitingList s sid, t.created_at ≤ u.created_at)
        ∧ call_next s sid now =
          (.ok (200, ticket_to_read (calledVersion t now) 0),
            callNextStore s t now)) := by
  obtain ⟨hnone, hsome⟩ := firstWaiting_spec s sid
  constructor
  · intro h
    simp [call_next, hnone h]
  · intro h
    obtain ⟨t, hfw, hmem, hmin⟩ := hsome h
    exact ⟨t, hmem, hmin, by simp [call_next, hfw, calledVersion, callNextStore]⟩

/-- Witness for C1 at a concrete store with one waiting ticket. -/
theorem call_next_spec_witness :
    ∃ t, t ∈ waitingList mixedStore 1
      ∧ (∀ u ∈ waitingList mixedStore 1, t.created_at ≤ u.created_at)
      ∧ call_next mixedStore 1 11 =
        (.ok (200, ticket_to_read (calledVersion t 11) 0),
          callNextStore mixedStore t 11) :=
  (call_next_spec mixedStore 1 11).2 (by decide)

/-- Claim C4: `cancel_ticket` fails with 404 when the ticket id is
absent; fails with the Conflict outcome (HTTP 400, `Already called;
cannot cancel`) when the ticket is already called, leaving the store
unchanged; otherwise deletes the row and succeeds with status 204 and
no body. -/
theorem cancel_ticket_spec (s : Store) (tid : Nat) :
    (getTicket s tid = none →
      cancel_ticket s tid = (.error ⟨404, "Ticket not found"⟩, s))
    ∧ (∀ t, getTicket s tid = some t → t.called = true →
      cancel_ticket s tid = (.error ⟨400, "Already called; cannot cancel"⟩, s))
    ∧ (∀ t, getTicket s tid = some t → t.called = false →
      cancel_ticket s tid =
        (.ok 204,
         { s with tickets := s.tickets.filter (fun u => u.id != tid) })) := by
  refine ⟨?_, ?_, ?_⟩
  · intro h; simp [cancel_ticket, h]
  · intro t h hc; simp [cancel_ticket, h, hc]
  · intro t h hc; simp [cancel_ticket, h, hc]

/-- Witness for C4: cancelling the already-called ticket 1 of
`mixedStore` fails with 400 and leaves the store unchanged. -/
theorem cancel_ticket_spec_witness :
    cancel_ticket mixedStore 1 =
      (.error ⟨400, "Already called; cannot cancel"⟩, mixedStore) :=
  (cancel_ticket_spec mixedStore 1).2.1 ⟨1, "Alice", 1, true, 5, some 9⟩
    (by decide) rfl

/-- Counterexample to claim C5 as stated: registering with the empty
name into an existing service does not fail with `InvalidInput`; the
code performs no name validation, succeeds with 201 and creates the
ticket. -/
theorem register_empty_name_cex :
    (register_ticket oneServiceStore "" 1 5).1
      = .ok (201, ⟨1, "", 1, 1, false, 5, none⟩)
    ∧ (register_ticket oneServiceStore "" 1 5).2.tickets
      = [⟨1, "", 1, false, 5, none⟩] := by decide

/-- Claim C5 as amended: `register_ticket` fails with 404 `Service not
found` when the service id is absent and then creates no ticket;
otherwise — with no validation of the name, even the empty string is
accepted — it creates a ticket with `called = false` and `created_at`
set to the current time and returns it with its computed position. -/
theorem register_ticket_spec (s : Store) (name : String) (sid now : Nat) :
    (getService s sid = none →
      register_ticket s name sid now = (.error ⟨404, "Service not found"⟩, s))
    ∧ (∀ svc, getService s sid = some svc →
      ∃ t s2, t.called = false ∧ t.created_at = now ∧ t.name = name
        ∧ t.service_id = svc.id
        ∧ s2.tickets = s.tickets ++ [t] ∧ s2.services = s.services
        ∧ register_ticket s name sid now =
            (.ok (201, ticket_to_read t (position_in_queue t s2)), s2)) := by
  constructor
  · intro h; simp [register_ticket, h]
  · intro svc h
    exact ⟨⟨s.nextTicketId, name, svc.id, false, now, none⟩,
      { s with tickets := s.tickets ++ [⟨s.nextTicketId, name, svc.id, false, now, none⟩],
               nextTicketId := s.nextTicketId + 1 },
      rfl, rfl, rfl, rfl, rfl, rfl, by simp [register_ticket, h]⟩

/-- Witness for C5 (amended) at a concrete store. -/
theorem register_ticket_spec_witness :
    ∃ t s2, t.called = false ∧ t.created_at = 5 ∧ t.name = "Alice"
      ∧ t.service_id = (⟨1, "Reception", none, 0⟩ : Service).id
      ∧ s2.tickets = oneServiceStore.tickets ++ [t]
      ∧ s2.services = oneServiceStore.services
      ∧ register_ticket oneServiceStore "Alice" 1 5 =
          (.ok (201, ticket_to_read t (position_in_queue t s2)), s2) :=
  (register_ticket_spec oneServiceStore "Alice" 1 5).2
    ⟨1, "Reception", none, 0⟩ (by decide)

/-- Counterexample to claim C7 as stated: creating a duplicate service
name fails with HTTP status 400, not 409. -/
theorem create_service_409_cex :
    (create_service oneServiceStore "Reception" none 7).1
        = .error ⟨400, "Service Reception already exists"⟩
    ∧ (400 : Nat) ≠ 409 := by decide

/-- Claim C7 as amended: creating a service whose name already exists
always fails — the duplicate-name Conflict is returned as HTTP 400,
not 409 — no new service is created and the store (in particular the
original service) is unchanged; creating a service with a fresh name
succeeds with 201 and returns the created `Service`. -/
theorem create_service_spec (s : Store) (name : String)
    (d : Option String) (now : Nat) :
    ((∃ v ∈ s.services, v.name = name) →
      create_service s name d now =
        (.error ⟨400, "Service " ++ name ++ " already exists"⟩, s))
    ∧ ((∀ v ∈ s.services, v.name ≠ name) →
      ∃ svc, svc.name = name ∧ svc.description = d
        ∧ create_service s name d now =
          (.ok (201, svc),
           { s with services := s.services ++ [svc],
                    nextServiceId := s.nextServiceId + 1 })) := by
  constructor
  · intro h
    obtain ⟨v, hv, hname⟩ := h
    have : (s.services.find? (fun v => v.name == name)).isSome := by
      rw [List.find?_isSome]
      exact ⟨v, hv, by simp [hname]⟩
    simp [create_service, this]
  · intro h
    have : s.services.find? (fun v => v.name == name) = none := by
      rw [List.find?_eq_none]
      intro v hv
      simp [h v hv]
    exact ⟨⟨s.nextServiceId, name, d, now⟩, rfl, rfl,
      by simp [create_service, this]⟩

/-- Witness for C7 (amended): the duplicate branch at a concrete
store. -/
theorem create_service_spec_witness :
    create_service oneServiceStore "Reception" none 7 =
      (.error ⟨400, "Service Reception already exists"⟩, oneServiceStore) :=
  (create_service_spec oneServiceStore "Reception" none 7).1
    ⟨⟨1, "Reception", none, 0⟩, by decide, rfl⟩

lemma pickMin_mem {l : List Ticket} {t : Ticket} (h : pickMin l = some t) :
    t ∈ l := by
  cases l with
  | nil => simp [pickMin_nil] at h
  | cons a l =>
    obtain ⟨t2, h1, h2, _⟩ := pickMin_cons a l
    rw [h1] at h
    exact (Option.some.inj h) ▸ h2

lemma create_service_post (s : Store) (n : String) (d : Option String)
    (now : Nat) :
    ((create_service s n d now).2).tickets = s.tickets
      ∧ ((create_service s n d now).2).nextTicketId = s.nextTicketId := by
  unfold create_service
  split <;> exact ⟨rfl, rfl⟩

lemma register_post (s : Store) (n : String) (sid now : Nat) :
    (register_ticket s n sid now).2 = s
    ∨ ∃ svcid, (register_ticket s n sid now).2 =
        { s with
          tickets := s.tickets ++ [⟨s.nextTicketId, n, svcid, false, now, none⟩],
          nextTicketId := s.nextTicketId + 1 } := by
  unfold register_ticket
  cases h : getService s sid with
  | none => exact Or.inl rfl
  | some svc => exact Or.inr ⟨svc.id, rfl⟩

lemma cancel_post (s : Store) (tid : Nat) :
    (cancel_ticket s tid).2 = s
    ∨ ((cancel_ticket s tid).2 =
        { s with tickets := s.tickets.filter (fun u => u.id != tid) }
      ∧ ∃ c ∈ s.tickets, c.id = tid ∧ c.called = false) := by
  unfold cancel_ticket
  cases h : getTicket s tid with
  | none => exact Or.inl rfl
  | some c =>
    by_cases hc : c.called
    · simp only [hc]
      exact Or.inl rfl
    · simp only [hc]
      refine Or.inr ⟨rfl, c, List.mem_of_find?_eq_some h, ?_, by simpa using hc⟩
      have := List.find?_some h
      simpa using this

lemma call_next_post (s : Store) (sid now : Nat) :
    (call_next s sid now).2 = s
    ∨ ∃ c, c ∈ s.tickets ∧ c.called = false ∧ c.service_id = sid
        ∧ (call_next s sid now).2 = callNextStore s c now := by
  unfold call_next
  cases h : firstWaiting s sid with
  | none => exact Or.inl rfl
  | some c =>
    have hm : c ∈ waitingList s sid := pickMin_mem h
    rw [waitingList, List.mem_filter] at hm
    have h2 := hm.2
    simp only [Bool.and_eq_true, beq_iff_eq] at h2
    exact Or.inr ⟨c, hm.1, h2.2, h2.1, by simp [callNextStore, calledVersion]⟩

lemma callNextStore_map_id (s : Store) (c : Ticket) (now : Nat) :
    (callNextStore s c now).tickets.map Ticket.id = s.tickets.map Ticket.id := by
  simp only [callNextStore, List.map_map]
  apply List.map_congr_left
  intro u _
  simp only [Function.comp]
  split
  · next h =>
    have h2 : u.id = c.id := by simpa using h
    simp [calledVersion, h2]
  · rfl

lemma step_preserves (s : Store) (op : Op) (h : TicketIdsOk s) :
    TicketIdsOk (applyOp s op) := by
  obtain ⟨hnd, hlt⟩ := h
  cases op with
  | createService n d now =>
    obtain ⟨h1, h2⟩ := create_service_post s n d now
    exact ⟨by rw [applyOp, h1]; exact hnd, by rw [applyOp, h1, h2]; exact hlt⟩
  | register n sid now =>
    rcases register_post s n sid now with h1 | ⟨svcid, h1⟩
    · exact ⟨by rw [applyOp, h1]; exact hnd, by rw [applyOp, h1]; exact hlt⟩
    · constructor
      · rw [applyOp, h1]
        simp only [List.map_append, List.map_cons, List.map_nil]
        rw [List.nodup_append]
        refine ⟨hnd, List.nodup_singleton _, ?_⟩
        intro x hx
        simp only [List.mem_singleton]
        intro he
        obtain ⟨u, hu, hid⟩ := List.mem_map.mp hx
        exact absurd (hid.trans he) (Nat.ne_of_lt (hlt u hu))
      · rw [applyOp, h1]
        intro u hu
        rcases List.mem_append.mp hu with hu2 | hu2
        · exact Nat.lt_trans (hlt u hu2) (Nat.lt_succ_self _)
        · rw [List.mem_singleton.mp hu2]
          exact Nat.lt_succ_self _
  | cancel tid =>
    rcases cancel_post s tid with h1 | ⟨h1, _⟩
    · exact ⟨by rw [applyOp, h1]; exact hnd, by rw [applyOp, h1]; exact hlt⟩
    · constructor
      · rw [applyOp, h1]
        exact ((List.filter_sublist _).map Ticket.id).nodup hnd
      · rw [applyOp, h1]
        intro u hu
        exact hlt u (List.mem_of_mem_filter hu)
  | next sid now =>
    rcases call_next_post s sid now with h1 | ⟨c, hcm, _, _, h1⟩
    · exact ⟨by rw [applyOp, h1]; exact hnd, by rw [applyOp, h1]; exact hlt⟩
    · constructor
      · rw [applyOp, h1, callNextStore_map_id]
        exact hnd
      · rw [applyOp, h1]
        intro u hu
        simp only [callNextStore, List.mem_map] at hu
        obtain ⟨v, hv, he⟩ := hu
        have hid : u.id = v.id := by
          rw [← he]
          split
          · next hb =>
            have h2 : v.id = c.id := by simpa using hb
            simp [calledVersion, h2]
          · rfl
        show u.id < s.nextTicketId
        rw [hid]
        exact hlt v hv

lemma step_keeps_called (s : Store) (op : Op) (t : Ticket)
    (h : TicketIdsOk s) (ht : t ∈ s.tickets) (hc : t.called = true) :
    t ∈ (applyOp s op).tickets := by
  obtain ⟨hnd, _⟩ := h
  cases op with
  | createService n d now =>
    rw [applyOp, (create_service_post s n d now).1]
    exact ht
  | register n sid now =>
    rcases register_post s n sid now with h1 | ⟨svcid, h1⟩
    · rw [applyOp, h1]; exact ht
    · rw [applyOp, h1]
      exact List.mem_append_left _ ht
  | cancel tid =>
    rcases cancel_post s tid with h1 | ⟨h1, c, hcm, hcid, hcc⟩
    · rw [applyOp, h1]; exact ht
    · rw [applyOp, h1]
      refine List.mem_filter.mpr ⟨ht, ?_⟩
      have hne : t ≠ c := by
        intro he
        rw [he, hcc] at hc
        exact Bool.false_ne_true hc
      have : t.id ≠ tid := by
        intro he
        exact hne (List.inj_on_of_nodup_map hnd ht hcm (he.trans hcid.symm))
      simpa using this
  | next sid now =>
    rcases call_next_post s sid now with h1 | ⟨c, hcm, hcc, _, h1⟩
    · rw [applyOp, h1]; exact ht
    · rw [applyOp, h1]
      simp only [callNextStore, List.mem_map]
      refine ⟨t, ht, ?_⟩
      have hne : t ≠ c := by
        intro he
        rw [he, hcc] at hc
        exact Bool.false_ne_true hc
      have : t.id ≠ c.id := fun he =>
        hne (List.inj_on_of_nodup_map hnd ht hcm he)
      simp [this]

/-- Claim C3: once a ticket is called, no later sequence of requests
ever reverts its flag — the ticket row survives every operation
unchanged, any row carrying its primary key is that very row — and
every subsequent position query for it returns 0, forever. -/
theorem called_stays_called_forever (s : Store) (t : Ticket) (ops : List Op)
    (hids : TicketIdsOk s) (ht : t ∈ s.tickets) (hc : t.called = true) :
    t ∈ (applyOps s ops).tickets
    ∧ (∀ u ∈ (applyOps s ops).tickets, u.id = t.id → u = t)
    ∧ position_in_queue t (applyOps s ops) = 0 := by
  have main : TicketIdsOk (applyOps s ops) ∧ t ∈ (applyOps s ops).tickets := by
    induction ops generalizing s with
    | nil => exact ⟨hids, ht⟩
    | cons op ops ih =>
      exact ih (applyOp s op) (step_preserves s op hids)
        (step_keeps_called s op t hids ht hc)
  refine ⟨main.2, ?_, by simp [position_in_queue, hc]⟩
  intro u hu he
  exact List.inj_on_of_nodup_map main.1.1 hu main.2 he

/-- Witness for C3: the called ticket of `mixedStore` survives a
cancellation attempt, a registration and a later `call_next`. -/
theorem called_stays_called_forever_witness :
    (⟨1, "Alice", 1, true, 5, some 9⟩ : Ticket) ∈
        (applyOps mixedStore [.cancel 1, .register "Carol" 1 12, .next 1 13]).tickets
    ∧ (∀ u ∈ (applyOps mixedStore [.cancel 1, .register "Carol" 1 12, .next 1 13]).tickets,
        u.id = 1 → u = ⟨1, "Alice", 1, true, 5, some 9⟩)
    ∧ position_in_queue ⟨1, "Alice", 1, true, 5, some 9⟩
        (applyOps mixedStore [.cancel 1, .register "Carol" 1 12, .next 1 13]) = 0 :=
  called_stays_called_forever mixedStore ⟨1, "Alice", 1, true, 5, some 9⟩
    [.cancel 1, .register "Carol" 1 12, .next 1 13]
    ⟨by decide, by decide⟩ (by decide) rfl

lemma register_services (s : Store) (n : String) (sid now : Nat) :
    (register_ticket s n sid now).2.services = s.services := by
  unfold register_ticket
  cases h : getService s sid <;> rfl

lemma register_post_sid (s : Store) (n : String) (sid now : Nat) :
    (register_ticket s n sid now).2 = s
    ∨ (register_ticket s n sid now).2 =
        { s with
          tickets := s.tickets ++ [⟨s.nextTicketId, n, sid, false, now, none⟩],
          nextTicketId := s.nextTicketId + 1 } := by
  unfold register_ticket
  cases h : getService s sid with
  | none => exact Or.inl rfl
  | some svc =>
    have hsvc : svc.id = sid := by simpa using List.find?_some h
    subst hsvc
    exact Or.inr rfl

lemma cancel_services (s : Store) (tid : Nat) :
    (cancel_ticket s tid).2.services = s.services := by
  unfold cancel_ticket
  cases h : getTicket s tid with
  | none => rfl
  | some t =>
    by_cases hc : t.called <;> simp only [hc] <;> rfl

lemma call_next_services (s : Store) (sid now : Nat) :
    (call_next s sid now).2.services = s.services := by
  unfold call_next
  cases h : firstWaiting s sid <;> rfl

/-- Claim C10: the mutating operations targeted at a service `sid` —
`register_ticket` into `sid`, `cancel_ticket` of a ticket belonging to
`sid`, and `call_next` on `sid` — leave every ticket of every other
service unchanged (the identical row is a member of the table before
and after) and leave the `Service` table unchanged. -/
theorem frame_other_services (s : Store) (sid : Nat)
    (hnd : (s.tickets.map Ticket.id).Nodup) :
    (∀ name now u, u.service_id ≠ sid →
      ((register_ticket s name sid now).2.services = s.services
        ∧ (u ∈ (register_ticket s name sid now).2.tickets ↔ u ∈ s.tickets)))
    ∧ (∀ now u, u.service_id ≠ sid →
      ((call_next s sid now).2.services = s.services
        ∧ (u ∈ (call_next s sid now).2.tickets ↔ u ∈ s.tickets)))
    ∧ (∀ tid t, getTicket s tid = some t → t.service_id = sid →
      ∀ u, u.service_id ≠ sid →
        ((cancel_ticket s tid).2.services = s.services
          ∧ (u ∈ (cancel_ticket s tid).2.tickets ↔ u ∈ s.tickets))) := by
  refine ⟨?_, ?_, ?_⟩
  · intro name now u hu
    refine ⟨register_services s name sid now, ?_⟩
    rcases register_post_sid s name sid now with h1 | h1
    · rw [h1]
    · rw [h1]
      simp only [List.mem_append, List.mem_singleton]
      constructor
      · rintro (h2 | rfl)
        · exact h2
        · exact absurd rfl hu
      · exact Or.inl
  · intro now u hu
    refine ⟨call_next_services s sid now, ?_⟩
    rcases call_next_post s sid now with h1 | ⟨c, hcm, _, hcs, h1⟩
    · rw [h1]
    · rw [h1]
      simp only [callNextStore, List.mem_map]
      constructor
      · rintro ⟨v, hv, he⟩
        by_cases hb : (v.id == c.id) = true
        · exfalso
          rw [← he, if_pos hb] at hu
          exact hu hcs
        · rw [← he, if_neg hb]
          exact hv
      · intro h2
        refine ⟨u, h2, ?_⟩
        have hne : u ≠ c := fun he => hu (he ▸ hcs)
        have : u.id ≠ c.id := fun he =>
          hne (List.inj_on_of_nodup_map hnd h2 hcm he)
        simp [this]
  · intro tid t hfind hts u hu
    refine ⟨cancel_services s tid, ?_⟩
    have htm : t ∈ s.tickets := List.mem_of_find?_eq_some hfind
    have htid : t.id = tid := by simpa using List.find?_some hfind
    unfold cancel_ticket
    rw [hfind]
    by_cases hc : t.called
    · simp only [hc]
      simp
    · simp only [hc]
      simp only [Bool.false_eq_true, if_false, List.mem_filter]
      constructor
      · exact fun h2 => h2.1
      · intro h2
        refine ⟨h2, ?_⟩
        have hne : u ≠ t := fun he => hu (he ▸ hts)
        have : u.id ≠ tid := fun he =>
          hne (List.inj_on_of_nodup_map hnd h2 htm (he.trans htid.symm))
        simpa using this

/-- Witness for C10: calling next on service 1 of `twoServiceStore`
leaves the ticket of service 2 in place and the services unchanged. -/
theorem frame_other_services_witness :
    (call_next twoServiceStore 1 9).2.services = twoServiceStore.services
    ∧ ((⟨2, "Bob", 2, false, 6, none⟩ : Ticket)
          ∈ (call_next twoServiceStore 1 9).2.tickets
        ↔ (⟨2, "Bob", 2, false, 6, none⟩ : Ticket) ∈ twoServiceStore.tickets) :=
  (frame_other_services twoServiceStore 1 (by decide)).2.1 9
    ⟨2, "Bob", 2, false, 6, none⟩ (by decide)

lemma readTicket_ticket_to_read (t : Ticket) (p : Nat) :
    readTicket (ticket_to_read t p) = t := rfl

lemma annotate_map_readTicket (L : List Ticket) : ∀ (idx : Nat),
    (annotate L idx).map readTicket = L := by
  induction L with
  | nil => intro idx; rfl
  | cons t ts ih =>
    intro idx
    by_cases h : t.called
    · simp [annotate, h, ih, readTicket_ticket_to_read]
    · simp [annotate, h, ih, readTicket_ticket_to_read]

lemma annotate_countP (L : List Ticket) (idx : Nat) :
    (annotate L idx).countP (fun x => !x.called) = L.countP (fun u => !u.called) := by
  conv_rhs => rw [← annotate_map_readTicket L idx]
  rw [List.countP_map]
  rfl

lemma annotate_decomp : ∀ (L : List Ticket) (idx : Nat) (l₁ : List TicketRead)
    (r : TicketRead) (l₂ : List TicketRead),
    annotate L idx = l₁ ++ r :: l₂ →
    ∃ m₁ t m₂, L = m₁ ++ t :: m₂ ∧ l₁ = annotate m₁ idx
      ∧ r = ticket_to_read t
          (if t.called then 0 else idx + m₁.countP (fun u => !u.called))
  | [], idx, l₁, r, l₂, h => by
    simp [annotate] at h
  | t :: ts, idx, l₁, r, l₂, h => by
    by_cases hc : t.called
    · rw [annotate, if_pos hc] at h
      cases l₁ with
      | nil =>
        simp only [List.nil_append, List.cons.injEq] at h
        refine ⟨[], t, ts, rfl, rfl, ?_⟩
        rw [← h.1, if_pos hc]
      | cons x l₁ =>
        simp only [List.cons_append, List.cons.injEq] at h
        obtain ⟨m₁, t2, m₂, he1, he2, he3⟩ := annotate_decomp ts idx l₁ r l₂ h.2
        refine ⟨t :: m₁, t2, m₂, by simp [he1], ?_, ?_⟩
        · rw [annotate, if_pos hc, ← h.1, he2]
        · rw [he3]
          have : (t :: m₁).countP (fun u => !u.called)
              = m₁.countP (fun u => !u.called) := by
            simp [List.countP_cons, hc]
          rw [this]
    · rw [annotate, if_neg hc] at h
      cases l₁ with
      | nil =>
        simp only [List.nil_append, List.cons.injEq] at h
        refine ⟨[], t, ts, rfl, rfl, ?_⟩
        rw [← h.1, if_neg hc]
        simp
      | cons x l₁ =>
        simp only [List.cons_append, List.cons.injEq] at h
        obtain ⟨m₁, t2, m₂, he1, he2, he3⟩ := annotate_decomp ts (idx + 1) l₁ r l₂ h.2
        refine ⟨t :: m₁, t2, m₂, by simp [he1], ?_, ?_⟩
        · rw [annotate, if_neg hc, ← h.1, he2]
        · rw [he3]
          have hcnt : (t :: m₁).countP (fun u => !u.called)
              = m₁.countP (fun u => !u.called) + 1 := by
            simp [List.countP_cons, hc]
          rw [hcnt]
          cases hc2 : t2.called
          · rw [if_neg Bool.false_ne_true, if_neg Bool.false_ne_true]
            congr 1
            omega
          · rw [if_pos rfl, if_pos rfl]

lemma map_pos_eq_range (g : Ticket → Nat) (L : List Ticket) : ∀ (c : Nat),
    (∀ m₁ t m₂, L = m₁ ++ t :: m₂ → g t = c + m₁.length) →
    L.map g = List.range' c L.length := by
  induction L with
  | nil => intro c _; rfl
  | cons t ts ih =>
    intro c h
    have h0 : g t = c := by simpa using h [] t ts rfl
    have hts : ts.map g = List.range' (c + 1) ts.length := by
      apply ih
      intro m₁ u m₂ he
      have h2 := h (t :: m₁) u m₂ (by simp [he])
      simp only [List.length_cons] at h2
      omega
    simp [h0, hts, List.range'_succ]

lemma countP_lt_sorted (m₁ m₂ : List Ticket) (t : Ticket)
    (hsort : List.Pairwise byCreated (m₁ ++ t :: m₂))
    (hnd : (((m₁ ++ t :: m₂).filter (fun u => !u.called)).map Ticket.created_at).Nodup)
    (htc : t.called = false) :
    (m₁ ++ t :: m₂).countP
        (fun u => !u.called && decide (u.created_at < t.created_at))
      = m₁.countP (fun u => !u.called) := by
  obtain ⟨hp1, hp2, hrel⟩ := List.pairwise_append.mp hsort
  have hfil : (m₁ ++ t :: m₂).filter (fun u => !u.called)
      = m₁.filter (fun u => !u.called) ++ t :: m₂.filter (fun u => !u.called) := by
    simp [List.filter_append, htc]
  rw [hfil] at hnd
  simp only [List.map_append, List.map_cons] at hnd
  rw [List.nodup_append] at hnd
  obtain ⟨_, hnd2, hdisj⟩ := hnd
  rw [List.countP_append, List.countP_cons]
  have hm2 : m₂.countP (fun u => !u.called && decide (u.created_at < t.created_at))
      = 0 := by
    rw [List.countP_eq_zero]
    intro u hu
    simp only [Bool.and_eq_true, decide_eq_true_eq, not_and]
    intro _
    have hle : t.created_at ≤ u.created_at := (List.pairwise_cons.mp hp2).1 u hu
    omega
  have hm1 : m₁.countP (fun u => !u.called && decide (u.created_at < t.created_at))
      = m₁.countP (fun u => !u.called) := by
    apply List.countP_congr
    intro u hu
    simp only [Bool.and_eq_true, decide_eq_true_eq]
    constructor
    · exact fun h => h.1
    · intro h
      refine ⟨h, ?_⟩
      have hle : u.created_at ≤ t.created_at := hrel u hu t (List.mem_cons_self _ _)
      have hmem : u.created_at ∈ (m₁.filter (fun v => !v.called)).map Ticket.created_at :=
        List.mem_map_of_mem _ (List.mem_filter.mpr ⟨hu, by simp [h]⟩)
      have hne : u.created_at ≠ t.created_at := by
        intro he
        exact hdisj hmem (by rw [he]; exact List.mem_cons_self _ _)
      omega
  rw [hm1, hm2]
  simp [htc]

lemma filter_sorted_perm_waiting (s : Store) (sid : Nat) :
    List.Perm ((sortedServiceTickets s sid).filter (fun u => !u.called))
      (waitingList s sid) := by
  have h1 : List.Perm ((sortedServiceTickets s sid).filter (fun u => !u.called))
      ((serviceTickets s sid).filter (fun u => !u.called)) :=
    (List.perm_insertionSort byCreated _).filter _
  have h2 : (serviceTickets s sid).filter (fun u => !u.called) = waitingList s sid := by
    unfold serviceTickets waitingList
    rw [List.filter_filter]
    apply List.filter_congr
    intro u _
    cases h : u.called <;> cases h3 : u.service_id == sid <;> simp [h, h3]
  rw [← h2]
  exact h1

lemma position_countP_waiting (s : Store) (sid : Nat) (t : Ticket)
    (hts : t.service_id = sid) (htc : t.called = false) :
    position_in_queue t s
      = (waitingList s sid).countP
          (fun u => decide (u.created_at < t.created_at)) + 1 := by
  unfold position_in_queue waitingList
  rw [if_neg (by simp [htc])]
  congr 1
  rw [List.countP_filter, ← List.countP_eq_length_filter]
  apply List.countP_congr
  intro u _
  subst hts
  cases h1 : u.called <;> cases h2 : u.service_id == t.service_id <;> simp [h1, h2]

lemma position_countP_service (s : Store) (sid : Nat) (t : Ticket)
    (hts : t.service_id = sid) (htc : t.called = false) :
    position_in_queue t s
      = (serviceTickets s sid).countP
          (fun u => !u.called && decide (u.created_at < t.created_at)) + 1 := by
  unfold position_in_queue serviceTickets
  rw [if_neg (by simp [htc])]
  congr 1
  rw [List.countP_filter, ← List.countP_eq_length_filter]
  apply List.countP_congr
  intro u _
  subst hts
  cases h1 : u.called <;> cases h2 : u.service_id == t.service_id <;> simp [h1, h2]

/-- Counterexample to claim C2 as stated: two registrations at the same
clock reading (the wall clock has finite resolution and the code has no
id tiebreak) produce a reachable state whose two waiting tickets both
get position 1 — the positions are [1, 1], not {1, 2}. -/
theorem waiting_positions_cex :
    tieStore = (register_ticket (register_ticket
        (create_service ⟨[], [], 1, 1⟩ "Reception" none 0).2 "A" 1 5).2 "B" 1 5).2
    ∧ (waitingList tieStore 1).length = 2
    ∧ (sortedWaiting tieStore 1).map (fun t => position_in_queue t tieStore) = [1, 1]
    ∧ [1, 1] ≠ List.range' 1 2 := by decide

/-- Claim C2 as amended: for every service and every state in which the
waiting tickets of that service carry pairwise distinct `created_at`
values, the positions computed by `_position_in_queue` for the waiting
tickets, ranked by `created_at` ascending, are exactly 1..N with no
gaps and no duplicates (N the waiting count).  When two waiting tickets
share a `created_at` (possible, as the timestamps come from the wall
clock and no id tiebreak exists) positions repeat. -/
theorem waiting_positions_exact (s : Store) (sid : Nat)
    (hnd : ((waitingList s sid).map Ticket.created_at).Nodup) :
    (sortedWaiting s sid).map (fun t => position_in_queue t s)
      = List.range' 1 (waitingList s sid).length := by
  have hperm : List.Perm (sortedWaiting s sid) (waitingList s sid) :=
    List.perm_insertionSort byCreated _
  have hallS : ∀ u ∈ sortedWaiting s sid, u.service_id = sid ∧ u.called = false := by
    intro u hu
    have h2 := (List.mem_filter.mp (hperm.mem_iff.mp hu)).2
    simp only [Bool.and_eq_true, beq_iff_eq] at h2
    exact h2
  rw [← hperm.length_eq]
  apply map_pos_eq_range
  intro m₁ t m₂ hdec
  show position_in_queue t s = 1 + m₁.length
  have htS : t ∈ sortedWaiting s sid := by
    rw [hdec]
    exact List.mem_append_right _ (List.mem_cons_self _ _)
  obtain ⟨hts, htc⟩ := hallS t htS
  have hall2 : ∀ u ∈ m₁ ++ t :: m₂, u.called = false := by
    intro u hu
    exact (hallS u (by rw [hdec]; exact hu)).2
  have hcongr : (m₁ ++ t :: m₂).countP (fun u => decide (u.created_at < t.created_at))
      = (m₁ ++ t :: m₂).countP
          (fun u => !u.called && decide (u.created_at < t.created_at)) := by
    apply List.countP_congr
    intro u hu
    simp [hall2 u hu]
  have hsortS : List.Pairwise byCreated (m₁ ++ t :: m₂) := by
    rw [← hdec]
    exact List.sorted_insertionSort byCreated (waitingList s sid)
  have hndS : (((m₁ ++ t :: m₂).filter (fun u => !u.called)).map
      Ticket.created_at).Nodup := by
    have hfeq : (m₁ ++ t :: m₂).filter (fun u => !u.called) = m₁ ++ t :: m₂ :=
      List.filter_eq_self.mpr (fun a ha => by simp [hall2 a ha])
    rw [hfeq, ← hdec]
    exact ((hperm.map Ticket.created_at).nodup_iff).mpr hnd
  have hlen : m₁.countP (fun u => !u.called) = m₁.length := by
    rw [List.countP_eq_length]
    intro u hu
    simp [hall2 u (List.mem_append_left _ hu)]
  rw [position_countP_waiting s sid t hts htc, (hperm.countP_eq _).symm, hdec,
    hcongr, countP_lt_sorted m₁ m₂ t hsortS hndS htc, hlen]
  omega

/-- Witness for C2 (amended) at a concrete two-ticket store. -/
theorem waiting_positions_exact_witness :
    (sortedWaiting twoServiceStore 1).map
        (fun t => position_in_queue t twoServiceStore)
      = List.range' 1 (waitingList twoServiceStore 1).length :=
  waiting_positions_exact twoServiceStore 1 (by decide)

/-- Claim C8: `queue_detail` fails with 404 when the service is absent;
otherwise it returns the waiting count together with ALL tickets of the
service — called ones included — ordered by `created_at` ascending,
each annotated with position 0 when called and its 1-based rank among
the waiting entries of the listing otherwise. -/
theorem queue_detail_spec (s : Store) (sid : Nat) :
    (getService s sid = none →
      queue_detail s sid = .error ⟨404, "Service not found"⟩)
    ∧ (∀ svc, getService s sid = some svc →
      ∃ q, queue_detail s sid = .ok (200, q)
        ∧ q.service_id = svc.id ∧ q.service_name = svc.name
        ∧ q.waiting = (waitingList s sid).length
        ∧ List.Perm (q.tickets.map readTicket) (serviceTickets s sid)
        ∧ List.Pairwise (fun a b => a.created_at ≤ b.created_at) q.tickets
        ∧ ∀ l₁ r l₂, q.tickets = l₁ ++ r :: l₂ →
            r.position = if r.called then 0
              else l₁.countP (fun x => !x.called) + 1) := by
  constructor
  · intro h
    simp [queue_detail, h]
  · intro svc h
    refine ⟨⟨svc.id, svc.name,
        ((sortedServiceTickets s sid).filter (fun t => !t.called)).length,
        annotate (sortedServiceTickets s sid) 1⟩,
      by simp [queue_detail, h], rfl, rfl, ?_, ?_, ?_, ?_⟩
    · exact (filter_sorted_perm_waiting s sid).length_eq
    · show List.Perm ((annotate (sortedServiceTickets s sid) 1).map readTicket) _
      rw [annotate_map_readTicket]
      exact List.perm_insertionSort byCreated _
    · show List.Pairwise _ (annotate (sortedServiceTickets s sid) 1)
      have hpw : List.Pairwise byCreated
          ((annotate (sortedServiceTickets s sid) 1).map readTicket) := by
        rw [annotate_map_readTicket]
        exact List.sorted_insertionSort byCreated (serviceTickets s sid)
      rw [List.pairwise_map] at hpw
      exact hpw
    · intro l₁ r l₂ hdec
      obtain ⟨m₁, t, m₂, he1, he2, he3⟩ :=
        annotate_decomp (sortedServiceTickets s sid) 1 l₁ r l₂ hdec
      rw [he3, he2]
      simp only [ticket_to_read]
      rw [annotate_countP]
      by_cases hc : t.called = true
      · rw [if_pos hc, if_pos hc]
      · rw [if_neg hc, if_neg hc]
        omega

/-- Witness for C8 at a concrete store with one called and one waiting
ticket. -/
theorem queue_detail_spec_witness :
    ∃ q, queue_detail mixedStore 1 = .ok (200, q)
      ∧ q.waiting = (waitingList mixedStore 1).length := by
  obtain ⟨q, h1, _, _, h4, _, _, _⟩ :=
    (queue_detail_spec mixedStore 1).2 ⟨1, "Reception", none, 0⟩ (by decide)
  exact ⟨q, h1, h4⟩

/-- Claim C9: in a state where the waiting tickets of the service have
pairwise distinct `created_at` values, the position annotated to any
entry of the queue-detail listing agrees with the single-ticket
computation `_position_in_queue` (the one used by `get_ticket` and
`register_ticket`) applied to the same ticket. -/
theorem position_computations_agree (s : Store) (sid : Nat) (q : QueueRead)
    (l₁ : List TicketRead) (r : TicketRead) (l₂ : List TicketRead)
    (hnd : ((waitingList s sid).map Ticket.created_at).Nodup)
    (hq : queue_detail s sid = .ok (200, q))
    (hdec : q.tickets = l₁ ++ r :: l₂) :
    r.position = position_in_queue (readTicket r) s := by
  have hqt : q.tickets = annotate (sortedServiceTickets s sid) 1 := by
    unfold queue_detail at hq
    cases h : getService s sid with
    | none =>
      rw [h] at hq
      exact absurd hq (by simp)
    | some svc =>
      rw [h] at hq
      simp only [Except.ok.injEq, Prod.mk.injEq] at hq
      rw [← hq.2]
  rw [hqt] at hdec
  obtain ⟨m₁, t, m₂, he1, he2, he3⟩ :=
    annotate_decomp (sortedServiceTickets s sid) 1 l₁ r l₂ hdec
  have hrt : readTicket r = t := by rw [he3]; rfl
  rw [hrt]
  cases hc : t.called
  · have htmem : t ∈ sortedServiceTickets s sid := by
      rw [he1]
      exact List.mem_append_right _ (List.mem_cons_self _ _)
    have hts : t.service_id = sid := by
      have h2 := (List.mem_filter.mp
        ((List.mem_insertionSort byCreated).mp htmem)).2
      simpa using h2
    have hsort : List.Pairwise byCreated (m₁ ++ t :: m₂) := by
      rw [← he1]
      exact List.sorted_insertionSort byCreated (serviceTickets s sid)
    have hnd2 : (((m₁ ++ t :: m₂).filter (fun u => !u.called)).map
        Ticket.created_at).Nodup := by
      rw [← he1]
      exact ((filter_sorted_perm_waiting s sid).map Ticket.created_at).nodup_iff.mpr hnd
    have hpos : r.position = 1 + m₁.countP (fun u => !u.called) := by
      rw [he3]
      simp only [ticket_to_read]
      rw [if_neg (by simp [hc])]
    have hcnt : (serviceTickets s sid).countP
        (fun u => !u.called && decide (u.created_at < t.created_at))
        = (m₁ ++ t :: m₂).countP
            (fun u => !u.called && decide (u.created_at < t.created_at)) := by
      rw [← he1]
      exact ((List.perm_insertionSort byCreated (serviceTickets s sid)).countP_eq _).symm
    rw [hpos, position_countP_service s sid t hts hc, hcnt,
      countP_lt_sorted m₁ m₂ t hsort hnd2 hc]
    omega
  · have hpos : r.position = 0 := by
      rw [he3]
      simp [ticket_to_read, hc]
    rw [hpos]
    simp [position_in_queue, hc]

/-- Witness for C9 at a concrete store: the listing position of the
waiting ticket Bob agrees with `_position_in_queue`. -/
theorem position_computations_agree_witness :
    (⟨2, "Bob", 1, 1, false, 7, none⟩ : TicketRead).position
      = position_in_queue (readTicket ⟨2, "Bob", 1, 1, false, 7, none⟩) mixedStore :=
  position_computations_agree mixedStore 1
    ⟨1, "Reception", 1,
      [⟨1, "Alice", 1, 0, true, 5, some 9⟩, ⟨2, "Bob", 1, 1, false, 7, none⟩]⟩
    [⟨1, "Alice", 1, 0, true, 5, some 9⟩] ⟨2, "Bob", 1, 1, false, 7, none⟩ []
    (by decide) (by decide) (by decide)
